import Mathlib

/-!
Verification development for the hdb single-header hash database (src/hdb.h).

The C library keeps three stdio streams per database: a hash-directory file,
a data file and a deleted-blocks (free-list) file, plus an in-memory array of
reclaimed data-file offsets.  We model each stream as a byte list together
with a current position.  Conventions of the shallow embedding:

* bytes are `Nat` values (< 256 in every state the operations construct);
* `fread` transfers the bytes available before end-of-file and advances the
  position by exactly that many; the untouched remainder of the destination
  buffer is modelled as zero (an untouched zero-initialised buffer);
* `fwrite` past end-of-file first extends the file with zero bytes (the POSIX
  hole-filling behaviour), `ftruncate` to a larger size likewise pads with
  zeros;
* multi-byte integers are serialised little-endian, matching the x86 layout
  the files use via the raw `fread`/`fwrite` of `uint32_t`/`uint64_t`/`int`;
* the background fsync thread only forces buffered data to disk and never
  changes file contents, so it is not modelled.
-/

set_option maxRecDepth 8000 in
/-- One stdio stream: the file contents as a byte list plus the position. -/
structure CFile where
  data : List Nat
  pos : Nat
deriving DecidableEq, Repr

/-- Little-endian value of a byte list. -/
def leVal : List Nat → Nat
  | [] => 0
  | b :: bs => b + 256 * leVal bs

/-- Little-endian byte serialisation, `w` bytes wide. -/
def leBytes : Nat → Nat → List Nat
  | 0, _ => []
  | w + 1, v => v % 256 :: leBytes w (v / 256)

/-- Contents padded with zero bytes up to length `p` (no-op when already longer). -/
def padTo (d : List Nat) (p : Nat) : List Nat :=
  d ++ List.replicate (p - d.length) 0

/-- Read `n` bytes of `d` starting at `p`; bytes beyond end-of-file are zero
(the destination buffer convention above). -/
def readAt (d : List Nat) (p n : Nat) : List Nat :=
  (d.drop p).take n ++ List.replicate (n - ((d.drop p).take n).length) 0

/-- Model of `fseek(f, p, SEEK_SET)`. -/
def CFile.seekSet (f : CFile) (p : Nat) : CFile :=
  { f with pos := p }

/-- Model of `fseek(f, 0, SEEK_END)`. -/
def CFile.seekEnd (f : CFile) : CFile :=
  { f with pos := f.data.length }

/-- Model of `fseek(f, d, SEEK_CUR)`; a seek to a negative offset fails and
leaves the position unchanged, as `fseek` does. -/
def CFile.seekCur (f : CFile) (d : Int) : CFile :=
  if (f.pos : Int) + d < 0 then f else { f with pos := ((f.pos : Int) + d).toNat }

/-- Model of `fread` of `n` bytes: returns the destination buffer and the
stream with its position advanced by the bytes actually available. -/
def CFile.readBytes (f : CFile) (n : Nat) : List Nat × CFile :=
  (readAt f.data f.pos n, { f with pos := f.pos + min n (f.data.length - f.pos) })

/-- Model of `fwrite` of the byte list `bs` at the current position. -/
def CFile.writeBytes (f : CFile) (bs : List Nat) : CFile :=
  { data := (padTo f.data f.pos).take f.pos ++ bs ++ (padTo f.data f.pos).drop (f.pos + bs.length),
    pos := f.pos + bs.length }

/-- Model of `ftruncate` to size `n` (extends with zero bytes when growing);
the position is not moved. -/
def CFile.truncate (f : CFile) (n : Nat) : CFile :=
  { f with data := (padTo f.data n).take n }

/-- Model of `fread(&x, sizeof(uint32_t), 1, f)`. -/
def CFile.readU32 (f : CFile) : Nat × CFile :=
  let r := f.readBytes 4
  (leVal r.1, r.2)

/-- Model of `fread(&x, sizeof(uint64_t), 1, f)`. -/
def CFile.readU64 (f : CFile) : Nat × CFile :=
  let r := f.readBytes 8
  (leVal r.1, r.2)

/-- Model of `fwrite(&x, sizeof(uint32_t), 1, f)`. -/
def CFile.writeU32 (f : CFile) (v : Nat) : CFile :=
  f.writeBytes (leBytes 4 (v % 4294967296))

/-- Model of `fwrite(&x, sizeof(uint64_t), 1, f)`. -/
def CFile.writeU64 (f : CFile) (v : Nat) : CFile :=
  f.writeBytes (leBytes 8 (v % 18446744073709551616))

/-- Bit pattern of the C cast `(int)position` storing a `uint64_t` offset in
the free-list array (two's-complement wraparound, kept as an unsigned Nat). -/
def intOfU64 (p : Nat) : Nat := p % 4294967296

/-- Value of the C conversion from the stored `int` back to `uint64_t`
(sign extension of the two's-complement bit pattern). -/
def u64OfInt (v : Nat) : Nat :=
  if v < 2147483648 then v else 18446744073709551616 - 4294967296 + v

/-- Wrapping `uint64_t` subtraction. -/
def u64sub (a b : Nat) : Nat :=
  (a + (18446744073709551616 - b % 18446744073709551616)) % 18446744073709551616

/-- Loop body of `hash_function` (src/hdb.h lines 144-147): the state is the
pair `(hash, prime)`; `prime2` is the constant 37. -/
def hashStep (st : Nat × Nat) (b : Nat) : Nat × Nat :=
  (((st.1 * st.2) % 4294967296) ^^^ (b * 37), (st.2 * 37) % 65521)

/-- Model of `hash_function` (src/hdb.h lines 140-149): `hash` starts at 0,
`prime` at 31; each byte folds through `hashStep`.  The C multiplication
`data[i] * prime2` is `int` arithmetic on a promoted byte, so it never
overflows and carries no reduction. -/
def hash_function (data : List Nat) : Nat :=
  (data.foldl hashStep (0, 31)).1

/-- Reference recurrence from the specification, read literally: h starts at
0, and for each byte b in order, h becomes (h * p1) XOR (b * p2) computed in
32-bit arithmetic, after which p1 becomes (p1 * p2) mod 65521, with initial
p1 = 31 and p2 = 37 fixed across iterations. -/
def hashStepSpec (st : Nat × Nat) (b : Nat) : Nat × Nat :=
  ((((st.1 * st.2) % 4294967296) ^^^ ((b * 37) % 4294967296)) % 4294967296,
   (st.2 * 37) % 65521)

/-- The specification's rolling hash as a whole. -/
def hash_function_spec (data : List Nat) : Nat :=
  (data.foldl hashStepSpec (0, 31)).1

lemma hashStep_eq_spec (st : Nat × Nat) (b : Nat) (hb : b < 256) :
    hashStep st b = hashStepSpec st b := by
  have h37 : b * 37 < 4294967296 := by
    calc b * 37 ≤ 255 * 37 := Nat.mul_le_mul_right 37 (Nat.lt_succ_iff.mp hb)
    _ < 4294967296 := by norm_num
  have hx : ((st.1 * st.2) % 4294967296) ^^^ (b * 37) < 4294967296 := by
    have h1 : (st.1 * st.2) % 4294967296 < 2 ^ 32 :=
      Nat.mod_lt _ (by norm_num)
    have h2 : b * 37 < 2 ^ 32 := by exact_mod_cast h37
    exact_mod_cast Nat.xor_lt_two_pow h1 h2
  unfold hashStep hashStepSpec
  rw [Nat.mod_eq_of_lt h37, Nat.mod_eq_of_lt hx]

lemma hashFold_eq_spec (l : List Nat) (st : Nat × Nat) (h : ∀ b ∈ l, b < 256) :
    l.foldl hashStep st = l.foldl hashStepSpec st := by
  induction l generalizing st with
  | nil => rfl
  | cons b bs ih =>
    have hb : b < 256 := h b (List.mem_cons_self b bs)
    simp only [List.foldl_cons, hashStep_eq_spec st b hb]
    exact ih _ (fun x hx => h x (List.mem_cons_of_mem b hx))

/-- C5: for every byte sequence, `hash_function` equals the reference
definition stated in the specification: h starts at 0 and for each input
byte b in order h := (h * p1) XOR (b * p2) in 32-bit arithmetic, after which
p1 := (p1 * p2) mod 65521, with initial p1 = 31 and p2 = 37 held fixed. -/
theorem hash_function_matches_reference (data : List Nat)
    (h : ∀ b ∈ data, b < 256) :
    hash_function data = hash_function_spec data := by
  unfold hash_function hash_function_spec
  rw [hashFold_eq_spec data (0, 31) h]

/-- Witness for C5 at the byte string "hello". -/
theorem hash_function_matches_reference_witness :
    (∀ b ∈ [104, 101, 108, 108, 111], b < 256) ∧
    hash_function [104, 101, 108, 108, 111] = hash_function_spec [104, 101, 108, 108, 111] :=
  ⟨by decide, hash_function_matches_reference [104, 101, 108, 108, 111] (by decide)⟩

/-- In-memory state of an open database (`struct hdb`): the three streams and
the deleted-blocks array.  The free list is the array contents in order;
its size is the list length. -/
structure Hdb where
  hashFile : CFile
  dataFile : CFile
  delFile : CFile
  freeList : List Nat
deriving DecidableEq, Repr

/-- Outcome of `db_get`: the returned status, the bytes placed in the caller
buffer, and the reported `*value_length`. -/
structure GetRes where
  status : Int
  buf : List Nat
  len : Nat
deriving DecidableEq, Repr

/-- Contents of the three on-disk artifacts between sessions. -/
structure Artifacts where
  hashData : List Nat
  dataData : List Nat
  delData : List Nat
deriving DecidableEq, Repr

/-- One iteration of the directory rewrite loop in `db_delete`
(src/hdb.h lines 254-270): read a 4-byte hash, skip the slot when it is 0,
otherwise read position and length and, when the position exceeds the
removed offset, seek back 16 bytes, write the decremented position and skip
over the length field. -/
def scanStep (position length : Nat) (hf : CFile) : CFile :=
  let r := hf.readU32
  if r.1 = 0 then r.2
  else
    let r2 := r.2.readU64
    let r3 := r2.2.readU64
    if r2.1 > position then
      ((r3.2.seekCur (-16)).writeU64 (u64sub r2.1 length)).seekCur 8
    else r3.2

/-- The 128-iteration rewrite loop of `db_delete`. -/
def scanLoop : Nat → Nat → Nat → CFile → CFile
  | 0, _, _, hf => hf
  | n + 1, position, length, hf => scanLoop n position length (scanStep position length hf)

/-- Model of `db_delete` (src/hdb.h lines 220-273).  Returns the new state
and the C return value (0 found, -1 not found). -/
def db_delete (db : Hdb) (key : List Nat) : Hdb × Int :=
  let hash := hash_function key
  let r := (db.hashFile.seekSet (hash % 128 * 4)).readU32
  if r.1 ≠ hash then ({ db with hashFile := r.2 }, -1)
  else
    let hf1 := (r.2.seekSet (hash % 128 * 4)).writeU32 0
    let r2 := (hf1.seekSet (hash % 128 * 16)).readU64
    let position := r2.1
    let r3 := r2.2.readU64
    let length := r3.1
    let fl := db.freeList ++ [intOfU64 position]
    let df1 := db.dataFile.seekSet (position + length)
    let remaining_size := df1.pos - (position + length)
    let rb := df1.readBytes remaining_size
    let df2 := (rb.2.seekSet position).writeBytes rb.1
    let df3 := df2.truncate (position + remaining_size)
    let hf2 := scanLoop 128 position length (r3.2.seekSet 0)
    ({ hashFile := hf2, dataFile := df3, delFile := db.delFile, freeList := fl }, 0)

/-- Model of `db_put` (src/hdb.h lines 151-179).  When the slot already holds
the computed hash the old record is deleted first; the value is then written
to the data file at the current position after an optional `SEEK_END` (the
source performs no seek in the free-list reuse branch), and the slot hash,
position and length are recorded. -/
def db_put (db : Hdb) (key value : List Nat) : Hdb × Int :=
  let hash := hash_function key
  let r := (db.hashFile.seekSet (hash % 128 * 4)).readU32
  let db1 := { db with hashFile := r.2 }
  let db2 := if r.1 = hash then (db_delete db1 key).1 else db1
  let hf1 := (db2.hashFile.seekSet (hash % 128 * 4)).writeU32 hash
  let pr : Nat × CFile × List Nat :=
    if db2.freeList.length > 0 then
      (u64OfInt (db2.freeList.getLastD 0), db2.dataFile, db2.freeList.dropLast)
    else
      let df := db2.dataFile.seekEnd
      (df.pos, df, db2.freeList)
  let df1 := pr.2.1.writeBytes value
  let hf2 := ((hf1.seekSet (hash % 128 * 16)).writeU64 pr.1).writeU64 value.length
  ({ hashFile := hf2, dataFile := df1, delFile := db2.delFile, freeList := pr.2.2 }, 0)

/-- Model of `db_get` (src/hdb.h lines 181-204).  The chunked read loop of
the source advances `total_read` by the requested chunk regardless of the
bytes actually available, so it transfers exactly the stored length, with
bytes past end-of-file left as the zero-initialised buffer contents. -/
def db_get (db : Hdb) (key : List Nat) : Hdb × GetRes :=
  let hash := hash_function key
  let r := (db.hashFile.seekSet (hash % 128 * 4)).readU32
  if r.1 ≠ hash then ({ db with hashFile := r.2 }, ⟨-1, [], 0⟩)
  else
    let r2 := (r.2.seekSet (hash % 128 * 16)).readU64
    let r3 := r2.2.readU64
    let rb := (db.dataFile.seekSet r2.1).readBytes r3.1
    ({ db with hashFile := r3.2, dataFile := rb.2 }, ⟨0, rb.1, r3.1⟩)

/-- Model of `encode_deleted_blocks_array` (src/hdb.h lines 206-210): seek to
the start of the deleted-blocks file and write the array as 4-byte ints.
The file is not truncated, so stale bytes beyond the written prefix remain. -/
def encode_deleted_blocks_array (fl : List Nat) (f : CFile) : CFile :=
  (f.seekSet 0).writeBytes (fl.map (fun v => leBytes 4 (v % 4294967296))).flatten

/-- Sequential `fread` of `n` 4-byte ints, as in `decode_deleted_blocks_array`. -/
def readInts : Nat → CFile → List Nat × CFile
  | 0, f => ([], f)
  | n + 1, f =>
    let r := f.readU32
    let rest := readInts n r.2
    (r.1 :: rest.1, rest.2)

/-- Model of `decode_deleted_blocks_array` (src/hdb.h lines 212-218): the
array size is the file length divided by the int width, then that many ints
are read from the start. -/
def decode_deleted_blocks_array (f : CFile) : List Nat × CFile :=
  let f1 := f.seekEnd
  let size := f1.pos / 4
  readInts size (f1.seekSet 0)

/-- Model of `db_open` (src/hdb.h lines 78-109) on the three artifact
contents: absent files are created empty, and the deleted-blocks array is
decoded from its file. -/
def db_open (hashData dataData delData : List Nat) : Hdb :=
  let r := decode_deleted_blocks_array ⟨delData, 0⟩
  { hashFile := ⟨hashData, 0⟩, dataFile := ⟨dataData, 0⟩, delFile := r.2, freeList := r.1 }

/-- Model of `db_close` (src/hdb.h lines 111-138): the deleted-blocks array
is encoded back into its file and all three streams are flushed and closed;
the resulting artifact contents survive to the next `db_open`.  When the
array is empty the encode writes nothing, which matches the source skipping
the call on a never-allocated array. -/
def db_close (db : Hdb) : Artifacts :=
  { hashData := db.hashFile.data, dataData := db.dataFile.data,
    delData := (encode_deleted_blocks_array db.freeList db.delFile).data }

/-- The stored 32-bit slot hash that `db_put`, `db_get` and `db_delete` all
read first: the 4 bytes at offset `(hash_function key % 128) * 4` of the
hash file.  The operations treat the key as present exactly when this value
equals the computed hash. -/
def slotHashRead (db : Hdb) (key : List Nat) : Nat :=
  ((db.hashFile.seekSet (hash_function key % 128 * 4)).readU32).1

/-- A freshly created database: all three artifacts start empty. -/
def freshDb : Hdb := db_open [] [] []

/-- Database holding two records: key `[45]` (hash 1665, bucket 1) with value
`[10, 20, 30]` at data offset 0, and key `[7]` (hash 259, bucket 3) with
value `[40, 50, 60]` at data offset 3. -/
def twoRecordDb : Hdb := (db_put (db_put freshDb [45] [10, 20, 30]).1 [7] [40, 50, 60]).1

/-- Database holding the single record key `[45]` (hash 1665, bucket 1) with
value `[10]` at data offset 0. -/
def oneRecordDb : Hdb := (db_put freshDb [45] [10]).1

/-- Three one-byte records at data offsets 0, 1, 2: keys `[90]` (hash 3330,
bucket 2), `[52]` (hash 1924, bucket 4) and `[14]` (hash 518, bucket 6). -/
def reuseDb2 : Hdb := (db_put (db_put (db_put freshDb [90] [10]).1 [52] [20]).1 [14] [30]).1

/-- The third record deleted: offset 2 sits on the free list. -/
def reuseDb3 : Hdb := (db_delete reuseDb2 [14]).1

/-- A read of key `[90]` afterwards leaves the data-file position at 1 while
offset 2 is the reusable one. -/
def reuseDb4 : Hdb := (db_get reuseDb3 [90]).1

/-- Folding a list of keys through `db_delete`. -/
def deleteAll (db : Hdb) : List (List Nat) → Hdb
  | [] => db
  | k :: ks => deleteAll (db_delete db k).1 ks

/-- All deletes along the fold report success (return value 0). -/
def allDeletesSucceed (db : Hdb) : List (List Nat) → Bool
  | [] => true
  | k :: ks => ((db_delete db k).2 == 0) && allDeletesSucceed (db_delete db k).1 ks

lemma readAt_nil (p n : Nat) : readAt [] p n = List.replicate n 0 := by
  simp [readAt]

lemma leVal_replicate_zero (n : Nat) : leVal (List.replicate n 0) = 0 := by
  induction n with
  | zero => rfl
  | succ m ih => simp [List.replicate, leVal, ih]

lemma db_delete_freeList_cases (db : Hdb) (k : List Nat) :
    ((db_delete db k).2 = -1 ∧ (db_delete db k).1.freeList = db.freeList) ∨
    ((db_delete db k).2 = 0 ∧ ∃ off, (db_delete db k).1.freeList = db.freeList ++ [off]) := by
  simp only [db_delete]
  split
  · exact Or.inl ⟨rfl, rfl⟩
  · exact Or.inr ⟨rfl, ⟨_, rfl⟩⟩

lemma delete_success_freeList (db : Hdb) (k : List Nat)
    (h : (db_delete db k).2 = 0) :
    ∃ off, (db_delete db k).1.freeList = db.freeList ++ [off] := by
  rcases db_delete_freeList_cases db k with ⟨h1, _⟩ | ⟨_, h2⟩
  · exact absurd (h1.symm.trans h) (by decide)
  · exact h2

lemma delete_fail_freeList (db : Hdb) (k : List Nat)
    (h : (db_delete db k).2 ≠ 0) :
    (db_delete db k).1.freeList = db.freeList := by
  rcases db_delete_freeList_cases db k with ⟨_, h1⟩ | ⟨h2, _⟩
  · exact h1
  · exact absurd h2 h

lemma delete_success_freeList_length (db : Hdb) (k : List Nat)
    (h : (db_delete db k).2 = 0) :
    (db_delete db k).1.freeList.length = db.freeList.length + 1 := by
  obtain ⟨off, hoff⟩ := delete_success_freeList db k h
  simp [hoff]

/-- C1 (refuted by the code): the round trip fails for keys whose bucket is
0.  Key `[128]` has hash 4736 and bucket 0; `db_put` stores the slot hash at
byte 0 and then records the 8-byte offset at byte `0 * 16 = 0`, overwriting
the hash it just wrote, so the following `db_get` reads a stored hash of 1
(the recorded offset), misses, and reports not-found instead of returning
`[42]`.  The first put extends the hash file past byte 16 so every byte the
failing operations read exists on file. -/
theorem put_then_get_loses_bucket_zero_key :
    hash_function [128] % 128 = 0 ∧
    (db_get (db_put (db_put freshDb [45] [7]).1 [128] [42]).1 [128]).2 = ⟨-1, [], 0⟩ := by
  decide

set_option maxRecDepth 8000 in
/-- C3 (refuted by the code): deleting the first record of `twoRecordDb`
(offset 0, length 3, end-of-file 6) should shift `[40, 50, 60]` left and
leave a 3-byte file; instead `db_delete` computes `remaining_size` from
`ftell` immediately after seeking to `position + length`, which is always 0,
shifts nothing and truncates the data file at the deleted offset, leaving it
empty and destroying the second record's bytes. -/
theorem delete_truncates_at_deleted_offset :
    twoRecordDb.dataFile.data = [10, 20, 30, 40, 50, 60] ∧
    (db_delete twoRecordDb [45]).2 = 0 ∧
    (db_delete twoRecordDb [45]).1.dataFile.data = [] := by
  decide

set_option maxRecDepth 8000 in
/-- C4 (refuted by the code): after putting key `[45]` (hash 1665, bucket 1)
the slot hash sits in bytes 4-7 (stride 4) and the offset and length in
bytes 16-31 (stride 16), while the claimed packed 20-byte layout would put
the slot-1 hash at byte 20 (those bytes hold 0) and its offset at byte 24
(those bytes hold the length 1).  `db_get` succeeds on the same state, so
put and get share the conflicting 4/16 strides rather than the claimed
uniform 20-byte records. -/
theorem directory_layout_inconsistent :
    hash_function [45] = 1665 ∧ hash_function [45] % 128 = 1 ∧
    readAt oneRecordDb.hashFile.data 4 4 = leBytes 4 1665 ∧
    readAt oneRecordDb.hashFile.data 20 4 = [0, 0, 0, 0] ∧
    leVal (readAt oneRecordDb.hashFile.data 16 8) = 0 ∧
    leVal (readAt oneRecordDb.hashFile.data 24 8) = 1 ∧
    (db_get oneRecordDb [45]).2.status = 0 := by
  decide

set_option maxRecDepth 8000 in
/-- C6 (refuted by the code): in `reuseDb4` the free list holds offset 2 and
the data-file position is 1 (a get of key `[90]` moved it).  The following
put of key `[97]` pops offset 2 and records it in the directory slot (bytes
80-87), but writes the value bytes at the current position 1 because the
source never seeks to the popped offset, so the data file becomes
`[10, 99]` instead of holding 99 at offset 2. -/
theorem reused_offset_write_misplaced :
    reuseDb4.freeList = [2] ∧
    reuseDb4.dataFile = ⟨[10, 20], 1⟩ ∧
    (db_put reuseDb4 [97] [99]).1.dataFile.data = [10, 99] ∧
    leVal (readAt (db_put reuseDb4 [97] [99]).1.hashFile.data 80 8) = 2 := by
  decide

set_option maxRecDepth 8000 in
/-- C8 counterexample: the empty key hashes to 0 and was never put, yet after
an unrelated put of key `[97]` (which zero-fills the first directory bytes)
`db_get` of the empty key reads a stored slot hash of 0, takes it for a
match and returns status 0 (found) rather than the not-found status -1. -/
theorem never_put_key_reported_found :
    hash_function [] = 0 ∧
    (db_get (db_put freshDb [97] [5]).1 []).2.status = 0 ∧
    (db_get (db_put freshDb [97] [5]).1 []).2.status ≠ -1 := by
  decide

/-- C9: for every key whose slot lookup misses (the stored slot hash differs
from the computed hash, which is the only absence criterion the source has),
`db_delete` returns the not-found value -1 and leaves the directory-file
contents, the data file, the free-list file and the in-memory free list
unchanged; only the directory stream's read position has advanced. -/
theorem delete_absent_no_op (db : Hdb) (k : List Nat)
    (h : slotHashRead db k ≠ hash_function k) :
    (db_delete db k).2 = -1 ∧
    (db_delete db k).1.hashFile.data = db.hashFile.data ∧
    (db_delete db k).1.dataFile = db.dataFile ∧
    (db_delete db k).1.delFile = db.delFile ∧
    (db_delete db k).1.freeList = db.freeList := by
  unfold slotHashRead at h
  simp only [CFile.readU32, CFile.readBytes, CFile.seekSet] at h
  simp [db_delete, h, CFile.readU32, CFile.readBytes, CFile.seekSet]

set_option maxRecDepth 8000 in
/-- Witness for C9: deleting key `[45]` from a fresh database. -/
theorem delete_absent_no_op_witness :
    slotHashRead freshDb [45] ≠ hash_function [45] ∧
    ((db_delete freshDb [45]).2 = -1 ∧
     (db_delete freshDb [45]).1.hashFile.data = freshDb.hashFile.data ∧
     (db_delete freshDb [45]).1.dataFile = freshDb.dataFile ∧
     (db_delete freshDb [45]).1.delFile = freshDb.delFile ∧
     (db_delete freshDb [45]).1.freeList = freshDb.freeList) :=
  ⟨by decide, delete_absent_no_op freshDb [45] (by decide)⟩

/-- C10: `db_get` never mutates the database.  For every state and key,
whether the lookup hits or misses, the directory-file contents, the
data-file contents, the free-list file and the in-memory free list are
unchanged (the two streams only move their read positions). -/
theorem get_does_not_mutate (db : Hdb) (k : List Nat) :
    (db_get db k).1.hashFile.data = db.hashFile.data ∧
    (db_get db k).1.dataFile.data = db.dataFile.data ∧
    (db_get db k).1.delFile = db.delFile ∧
    (db_get db k).1.freeList = db.freeList := by
  by_cases hc : leVal (readAt db.hashFile.data (hash_function k % 128 * 4) 4) = hash_function k
  · simp [db_get, hc, CFile.readU32, CFile.readU64, CFile.readBytes, CFile.seekSet]
  · simp [db_get, hc, CFile.readU32, CFile.readU64, CFile.readBytes, CFile.seekSet]

/-- C2: closing the database and reopening on the same three artifacts
reproduces the `db_get` outcome (status, bytes and reported length) of the
session before the close, for every key whatsoever, hence in particular for
every previously-put, non-deleted key. -/
theorem close_reopen_preserves_get (db : Hdb) (k : List Nat) :
    (db_get (db_open (db_close db).hashData (db_close db).dataData (db_close db).delData) k).2
      = (db_get db k).2 := by
  by_cases hc : leVal (readAt db.hashFile.data (hash_function k % 128 * 4) 4) = hash_function k
  · simp [db_get, db_open, db_close, hc, CFile.readU32, CFile.readU64, CFile.readBytes,
      CFile.seekSet]
  · simp [db_get, db_open, db_close, hc, CFile.readU32, CFile.readU64, CFile.readBytes,
      CFile.seekSet]

/-- C8 as amended: on a freshly created, empty database with no prior
operations, `db_get` reports not-found for every key whose hash is nonzero;
the restriction is forced because a zero hash matches the zero-filled slot,
as the counterexample with the empty key shows. -/
theorem fresh_get_not_found_when_hash_nonzero (k : List Nat)
    (h : hash_function k ≠ 0) :
    (db_get freshDb k).2 = ⟨-1, [], 0⟩ := by
  have hstored : leVal (readAt (freshDb.hashFile.data) (hash_function k % 128 * 4) 4) = 0 := by
    show leVal (readAt ([] : List Nat) (hash_function k % 128 * 4) 4) = 0
    rw [readAt_nil, leVal_replicate_zero]
  have hcond : ¬ leVal (readAt (freshDb.hashFile.data) (hash_function k % 128 * 4) 4)
      = hash_function k := by
    rw [hstored]
    exact fun he => h he.symm
  simp [db_get, hcond, CFile.readU32, CFile.readBytes, CFile.seekSet]

/-- Witness for the amended C8: key `[97]` has hash 3589. -/
theorem fresh_get_not_found_when_hash_nonzero_witness :
    hash_function [97] ≠ 0 ∧ (db_get freshDb [97]).2 = ⟨-1, [], 0⟩ :=
  ⟨by decide, fresh_get_not_found_when_hash_nonzero [97] (by decide)⟩

/-- C7: the free list is LIFO.  (1) A delete that returns 0 appends exactly
one freed offset to the free list and a failed delete leaves it unchanged;
(2) a put that does not trigger the internal overwrite-delete and finds a
non-empty free list removes exactly its most recently appended offset;
(3) any sequence of N successful deletes grows the free list by exactly N
entries. -/
theorem freelist_lifo_discipline :
    (∀ (db : Hdb) (k : List Nat),
      ((db_delete db k).2 = 0 →
        ∃ off, (db_delete db k).1.freeList = db.freeList ++ [off]) ∧
      ((db_delete db k).2 ≠ 0 → (db_delete db k).1.freeList = db.freeList)) ∧
    (∀ (db : Hdb) (k v : List Nat) (l : List Nat) (off : Nat),
      slotHashRead db k ≠ hash_function k → db.freeList = l ++ [off] →
      (db_put db k v).1.freeList = l) ∧
    (∀ (db : Hdb) (ks : List (List Nat)),
      allDeletesSucceed db ks = true →
      (deleteAll db ks).freeList.length = db.freeList.length + ks.length) := by
  refine ⟨fun db k => ⟨delete_success_freeList db k, delete_fail_freeList db k⟩, ?_, ?_⟩
  · intro db k v l off hmiss hfl
    unfold slotHashRead at hmiss
    simp only [CFile.readU32, CFile.readBytes, CFile.seekSet] at hmiss
    have hlen : (db.freeList.length > 0) := by
      rw [hfl]; simp
    simp [db_put, hmiss, hfl, hlen, CFile.readU32, CFile.readBytes, CFile.seekSet,
      List.dropLast_concat]
  · intro db ks
    induction ks generalizing db with
    | nil => intro _; simp [deleteAll, allDeletesSucceed]
    | cons k ks ih =>
      intro hall
      unfold allDeletesSucceed at hall
      rw [Bool.and_eq_true] at hall
      obtain ⟨h1, h2⟩ := hall
      have h0 : (db_delete db k).2 = 0 := beq_iff_eq.mp h1
      have hrec := ih ((db_delete db k).1) h2
      unfold deleteAll
      rw [hrec, delete_success_freeList_length db k h0]
      simp only [List.length_cons]
      omega

set_option maxRecDepth 8000 in
/-- Witness for C7: a successful delete on `twoRecordDb` appends one offset;
the put of key `[97]` on `reuseDb4` (free list `[2]`, no overwrite) pops the
most recent offset 2; the two successful deletes of `twoRecordDb`'s keys
grow the free list by exactly 2. -/
theorem freelist_lifo_discipline_witness :
    ((db_delete twoRecordDb [7]).2 = 0 ∧
      ∃ off, (db_delete twoRecordDb [7]).1.freeList = twoRecordDb.freeList ++ [off]) ∧
    (slotHashRead reuseDb4 [97] ≠ hash_function [97] ∧ reuseDb4.freeList = [] ++ [2] ∧
      (db_put reuseDb4 [97] [99]).1.freeList = []) ∧
    (allDeletesSucceed twoRecordDb [[7], [45]] = true ∧
      (deleteAll twoRecordDb [[7], [45]]).freeList.length = twoRecordDb.freeList.length + 2) :=
  ⟨⟨by decide, (freelist_lifo_discipline.1 twoRecordDb [7]).1 (by decide)⟩,
   ⟨by decide, by decide,
     freelist_lifo_discipline.2.1 reuseDb4 [97] [99] [] 2 (by decide) (by decide)⟩,
   ⟨by decide, freelist_lifo_discipline.2.2 twoRecordDb [[7], [45]] (by decide)⟩⟩
